import Mathlib

/-!
Verification of the MedSecure benchmark orchestration & replay frontend.

Shallow embedding of the client-side cost estimator
(`computeFilteredCostEstimates` in the remediation page), the replay
playback view (`PlaybackTimeline` in `frontend/app/replay/page.tsx`),
and — modelled from the spec, since the FastAPI backend is not part of
the sources — the append-only Event Store.

JavaScript numbers are embedded as exact rationals (`ℚ`); the
`Number.prototype.toFixed` / `parseFloat` round-trip used by the source
for display rounding is embedded as exact decimal rounding with ties
towards +∞, matching the ECMAScript `toFixed` specification ("if there
are two such n, pick the larger n").
-/

namespace MedSecure

/-- `Math.round x` (ECMAScript: round half towards +∞). -/
def jsMathRound (q : ℚ) : ℤ := ⌊q + 1/2⌋

/-- `parseFloat(x.toFixed(4))`: round to 4 decimal places, ties towards +∞. -/
def jsToFixed4 (q : ℚ) : ℚ := (⌊q * 10000 + 1/2⌋ : ℚ) / 10000

/-- `parseFloat(x.toFixed(2))`: round to 2 decimal places, ties towards +∞. -/
def jsToFixed2 (q : ℚ) : ℚ := (⌊q * 100 + 1/2⌋ : ℚ) / 100

/-- The `Alert` record of `lib/api.ts` (fields not consulted by the
cost estimator — rule id, message, urls, timestamps — are elided). -/
structure Alert where
  number : ℕ
  severity : String
  file_path : String
deriving Repr, DecidableEq

/-- The `CostEstimate` record of `lib/api.ts` (remediation variant). -/
structure CostEstimate where
  model : String
  pricing_type : String
  estimated_input_tokens : ℤ
  estimated_output_tokens : ℤ
  input_cost_usd : ℚ
  output_cost_usd : ℚ
  total_cost_usd : ℚ
  pricing : List (String × ℚ)
  alerts_processed : ℕ
  cost_per_request_usd : ℚ
  estimated_acus : ℚ
  cost_per_acu_usd : ℚ
  assumption : Option String
deriving Repr, DecidableEq

-- Pricing constants (remediation page, "mirrored from backend").
def DEVIN_ACU_PER_SESSION : ℚ := 9/100
def DEVIN_COST_PER_ACU : ℚ := 2
def COPILOT_COST_PER_REQUEST : ℚ := 4/100
def ESTIMATED_TOKENS_PER_ALERT : ℕ := 4500

/-- One row of the `API_TOOL_PRICING` table. -/
structure ApiPricing where
  model : String
  inputPerMtok : ℚ
  outputPerMtok : ℚ
deriving Repr, DecidableEq

/-- `API_TOOL_PRICING` from the remediation page. -/
def API_TOOL_PRICING : List (String × ApiPricing) :=
  [("anthropic", ⟨"claude-opus-4-6", 5, 25⟩),
   ("openai", ⟨"gpt-5.3-codex", 7/4, 14⟩),
   ("gemini", ⟨"gemini-3.1-pro-preview", 2, 12⟩)]

/-- `new Set(filteredAlerts.map((a) => a.file_path)).size`. -/
def uniqueFileCount (alerts : List Alert) : ℕ :=
  ((alerts.map (·.file_path)).dedup).length

/-- Token estimate: scale the baseline proportionally when available,
otherwise fall back to the per-alert heuristic. -/
def estimatedInputTokensFor (alertCount : ℕ) (baselineEstimatedTokens baselineTotalAlerts : ℚ) : ℤ :=
  if 0 < baselineEstimatedTokens ∧ 0 < baselineTotalAlerts then
    jsMathRound (baselineEstimatedTokens / baselineTotalAlerts * alertCount)
  else
    (alertCount * ESTIMATED_TOKENS_PER_ALERT : ℕ)

/-- The `estimates.devin` record: ACU-based, 1 session per unique file. -/
def devinEstimate (alertCount sessionCount fileCount : ℕ) : CostEstimate :=
  let estimatedAcus : ℚ := (sessionCount : ℚ) * DEVIN_ACU_PER_SESSION
  let devinCost : ℚ := estimatedAcus * DEVIN_COST_PER_ACU
  { model := "Devin (ACU-based)"
    pricing_type := "acu"
    total_cost_usd := jsToFixed4 devinCost
    alerts_processed := alertCount
    estimated_acus := jsToFixed2 estimatedAcus
    cost_per_acu_usd := DEVIN_COST_PER_ACU
    assumption := some (if 0 < fileCount then
        "Assumes ~0.09 ACU per session, " ++ toString sessionCount ++ " sessions (" ++
          toString alertCount ++ " alerts grouped into " ++ toString fileCount ++ " files)"
      else
        "Assumes ~0.09 ACU per session (1 session per unique file)")
    estimated_input_tokens := 0
    estimated_output_tokens := 0
    input_cost_usd := 0
    output_cost_usd := 0
    pricing := []
    cost_per_request_usd := 0 }

/-- The `estimates.copilot` record: flat $0.04 per alert. -/
def copilotEstimate (alertCount : ℕ) : CostEstimate :=
  let copilotCost : ℚ := (alertCount : ℚ) * COPILOT_COST_PER_REQUEST
  { model := "Copilot Autofix"
    pricing_type := "per_request"
    total_cost_usd := jsToFixed4 copilotCost
    alerts_processed := alertCount
    cost_per_request_usd := COPILOT_COST_PER_REQUEST
    assumption := none
    estimated_input_tokens := 0
    estimated_output_tokens := 0
    input_cost_usd := 0
    output_cost_usd := 0
    pricing := []
    estimated_acus := 0
    cost_per_acu_usd := 0 }

/-- One loop iteration of the API-tool (token-based) pricing loop. -/
def apiEstimate (p : ApiPricing) (estimatedInputTokens estimatedOutputTokens : ℤ)
    (alertCount : ℕ) : CostEstimate :=
  let inputCost : ℚ := ((estimatedInputTokens : ℚ) / 1000000) * p.inputPerMtok
  let outputCost : ℚ := ((estimatedOutputTokens : ℚ) / 1000000) * p.outputPerMtok
  let totalCost : ℚ := inputCost + outputCost
  { model := p.model
    pricing_type := "token"
    total_cost_usd := jsToFixed4 totalCost
    estimated_input_tokens := estimatedInputTokens
    estimated_output_tokens := estimatedOutputTokens
    input_cost_usd := jsToFixed4 inputCost
    output_cost_usd := jsToFixed4 outputCost
    pricing := [("input_per_mtok_usd", p.inputPerMtok), ("output_per_mtok_usd", p.outputPerMtok)]
    alerts_processed := alertCount
    assumption := none
    cost_per_request_usd := 0
    estimated_acus := 0
    cost_per_acu_usd := 0 }

/-- `computeFilteredCostEstimates` from the remediation page.  The
JavaScript record keyed by tool name is embedded as an association list
in insertion order (`devin`, `copilot`, then one entry per
`API_TOOL_PRICING` row). -/
def computeFilteredCostEstimates (filteredAlerts : List Alert)
    (baselineEstimatedTokens baselineTotalAlerts : ℚ) : List (String × CostEstimate) :=
  let alertCount := filteredAlerts.length
  if alertCount = 0 then []
  else
    let fileCount := uniqueFileCount filteredAlerts
    let estimatedInputTokens :=
      estimatedInputTokensFor alertCount baselineEstimatedTokens baselineTotalAlerts
    -- Output tokens estimated as ~equal to input tokens
    let estimatedOutputTokens := estimatedInputTokens
    let sessionCount := if 0 < fileCount then fileCount else alertCount
    ("devin", devinEstimate alertCount sessionCount fileCount) ::
    ("copilot", copilotEstimate alertCount) ::
    API_TOOL_PRICING.map (fun tp =>
      (tp.1, apiEstimate tp.2 estimatedInputTokens estimatedOutputTokens alertCount))

/-!
## Replay playback view (`PlaybackTimeline` in `frontend/app/replay/page.tsx`)
-/

/-- The `ReplayEvent` record of `lib/api.ts` (the open-ended
`metadata` JSON map and the `created_at` wall-clock string are elided:
no property below consults them). -/
structure ReplayEvent where
  id : ℕ
  run_id : ℕ
  tool : String
  event_type : String
  detail : String
  alert_number : Option ℕ
  timestamp_offset_ms : ℚ
  cost_usd : ℚ
deriving Repr, DecidableEq

/-- The `ReplayRunWithEvents` record of `lib/api.ts` (timestamps and
branch name elided). -/
structure ReplayRunWithEvents where
  id : ℕ
  repo : String
  status : String
  tools : List String
  total_cost_usd : ℚ
  events : List ReplayEvent
  total_duration_ms : Option ℚ
deriving Repr, DecidableEq

/-- `const maxOffset = run.total_duration_ms || 1` — JavaScript `||`
falls through on `null` and on `0`. -/
def playbackMaxOffset (run : ReplayRunWithEvents) : ℚ :=
  match run.total_duration_ms with
  | some d => if d = 0 then 1 else d
  | none => 1

/-- `run.events.filter((e) => e.timestamp_offset_ms <= currentTime)`. -/
def visibleEvents (run : ReplayRunWithEvents) (currentTime : ℚ) : List ReplayEvent :=
  run.events.filter (fun e => decide (e.timestamp_offset_ms ≤ currentTime))

/-- `eventsByTool[tool] = run.events.filter((e) => e.tool === tool)`. -/
def eventsByTool (run : ReplayRunWithEvents) (tool : String) : List ReplayEvent :=
  run.events.filter (fun e => e.tool == tool)

/-- Per-tool timeline lane:
`toolEvents.filter((e) => e.timestamp_offset_ms <= currentTime)`. -/
def toolVisibleEvents (run : ReplayRunWithEvents) (tool : String) (currentTime : ℚ) :
    List ReplayEvent :=
  (eventsByTool run tool).filter (fun e => decide (e.timestamp_offset_ms ≤ currentTime))

/-- The fix-event filter of the per-tool fix counter. -/
def isFixEvent (eventType : String) : Bool :=
  eventType == "fix_pushed" || eventType == "codeql_verified" ||
    eventType == "suggestion_accepted" || eventType == "patch_applied"

/-- The filter of the fix counter: events of the tool whose
`alert_number` is non-null and whose type is one of the four fix types. -/
def isFixCandidate (tool : String) (e : ReplayEvent) : Bool :=
  e.tool == tool && e.alert_number.isSome && isFixEvent e.event_type

/-- The `Set` of deduplicated `alert_number`s behind `fixCounts[tool]`:
visible fix-candidate events of the tool mapped to their alert numbers,
deduplicated. -/
def fixedAlerts (run : ReplayRunWithEvents) (tool : String) (currentTime : ℚ) : List ℕ :=
  (((visibleEvents run currentTime).filter (isFixCandidate tool)).filterMap
    (fun e => e.alert_number)).dedup

/-- `fixCounts[tool] = fixedAlerts.size`. -/
def fixCount (run : ReplayRunWithEvents) (tool : String) (currentTime : ℚ) : ℕ :=
  (fixedAlerts run tool currentTime).length

/-- One tick of the playback interval (`stepMs = 50`):
`next = prev + (maxOffset / 30000) * stepMs * speed`; when `next`
reaches `maxOffset` the cursor is clamped there and playing stops.
Returns the new `(currentTime, playing)` pair. -/
def playbackStep (maxOffset speed currentTime : ℚ) : ℚ × Bool :=
  let stepMs : ℚ := 50
  let increment := maxOffset / 30000 * stepMs * speed
  let next := currentTime + increment
  if maxOffset ≤ next then (maxOffset, false) else (next, true)

/-- The playback operations exposed by the controls. -/
inductive PlaybackOp
  | play
  | pause
  | tick
  | reset
deriving Repr, DecidableEq

/-- State transition of the playback controls over `(currentTime, playing)`:
`play`/`pause` toggle the flag, `tick` advances only while playing,
`reset` stops and returns the cursor to 0. -/
def playbackApply (maxOffset speed : ℚ) (s : ℚ × Bool) : PlaybackOp → ℚ × Bool
  | .play => (s.1, true)
  | .pause => (s.1, false)
  | .tick => if s.2 then playbackStep maxOffset speed s.1 else s
  | .reset => (0, false)

/-- Run a sequence of playback operations from the initial state
`currentTime = 0`, not playing. -/
def playbackRun (maxOffset speed : ℚ) (ops : List PlaybackOp) : ℚ × Bool :=
  ops.foldl (playbackApply maxOffset speed) (0, false)

/-!
## Event Store (backend)

The FastAPI backend holding the Event Store and the run's accumulated
cost is not among the sources; the definitions below are modelled from
the spec (§4.2 Event Store, §3 invariants).
-/

/-- Modelled from the spec: the persisted event row
`events(id, run_id, tool, event_type, detail, finding_id, offset_ms,
metadata_json, cost_usd, cumulative_cost_usd, created_at)`, restricted
to the fields the invariants speak about. -/
structure StoredEvent where
  tool : String
  offset_ms : ℕ
  cost_usd : ℚ
deriving Repr, DecidableEq

/-- Modelled from the spec: one run's slice of the store — its
append-only event log plus the run row's accumulated `total_cost_usd`. -/
structure RunState where
  events : List StoredEvent
  total_cost_usd : ℚ
deriving Repr, DecidableEq

/-- Modelled from the spec: a freshly created run — no events, zero cost. -/
def initRunState : RunState := ⟨[], 0⟩

/-- Modelled from the spec: `append(event)` — the event is appended to
the run's log and the run's cumulative cost counter is incremented by
the event's cost (maintained incrementally on append, not recomputed). -/
def appendEvent (s : RunState) (e : StoredEvent) : RunState :=
  ⟨s.events ++ [e], s.total_cost_usd + e.cost_usd⟩

/-- Modelled from the spec: a sequence of appends. -/
def appendAll (s : RunState) (es : List StoredEvent) : RunState :=
  es.foldl appendEvent s

/-- §3 invariant: a run's total cost equals the sum of all its events'
per-event costs. -/
def costInvariant (s : RunState) : Prop :=
  s.total_cost_usd = (s.events.map (·.cost_usd)).sum

/-- The offsets of one tool's events, in log order. -/
def toolOffsets (s : RunState) (tool : String) : List ℕ :=
  (s.events.filter (fun e => e.tool == tool)).map (·.offset_ms)

/-- §3 invariant: within a single tool's event sequence, timestamp
offsets are non-decreasing. -/
def perToolMonotone (s : RunState) : Prop :=
  ∀ tool, (toolOffsets s tool).Sorted (· ≤ ·)

/-- A list of 12 alerts spread across 4 unique files — the cost
scenario of the spec. -/
def demoAlerts : List Alert :=
  [⟨1, "high", "f0"⟩, ⟨2, "high", "f1"⟩, ⟨3, "high", "f2"⟩, ⟨4, "high", "f3"⟩,
   ⟨5, "high", "f0"⟩, ⟨6, "high", "f1"⟩, ⟨7, "high", "f2"⟩, ⟨8, "high", "f3"⟩,
   ⟨9, "high", "f0"⟩, ⟨10, "high", "f1"⟩, ⟨11, "high", "f2"⟩, ⟨12, "high", "f3"⟩]

/-!
## Helper lemmas
-/

theorem uniqueFileCount_pos {alerts : List Alert} (h : alerts ≠ []) :
    0 < uniqueFileCount alerts := by
  rw [uniqueFileCount]
  exact List.length_pos.mpr (by simpa [List.dedup_eq_nil, List.map_eq_nil_iff] using h)

theorem length_ne_zero {alerts : List Alert} (h : alerts ≠ []) : ¬ alerts.length = 0 := by
  simpa [List.length_eq_zero] using h

/-- The `devin` entry of a non-empty estimate record. -/
theorem lookup_devin {alerts : List Alert} (bt ba : ℚ) (h : alerts ≠ []) :
    List.lookup "devin" (computeFilteredCostEstimates alerts bt ba) =
      some (devinEstimate alerts.length (uniqueFileCount alerts) (uniqueFileCount alerts)) := by
  simp [computeFilteredCostEstimates, length_ne_zero h, List.lookup, uniqueFileCount_pos h]

/-- The `copilot` entry of a non-empty estimate record. -/
theorem lookup_copilot {alerts : List Alert} (bt ba : ℚ) (h : alerts ≠ []) :
    List.lookup "copilot" (computeFilteredCostEstimates alerts bt ba) =
      some (copilotEstimate alerts.length) := by
  simp [computeFilteredCostEstimates, length_ne_zero h, List.lookup]

/-- The token-priced entries of a non-empty estimate record. -/
theorem lookup_api (alerts : List Alert) (bt ba : ℚ) (h : alerts ≠ [])
    (tool : String) (p : ApiPricing) (hmem : (tool, p) ∈ API_TOOL_PRICING) :
    List.lookup tool (computeFilteredCostEstimates alerts bt ba) =
      some (apiEstimate p (estimatedInputTokensFor alerts.length bt ba)
        (estimatedInputTokensFor alerts.length bt ba) alerts.length) := by
  simp only [API_TOOL_PRICING, List.mem_cons, List.not_mem_nil, or_false] at hmem
  rcases hmem with hmem | hmem | hmem <;>
    (obtain ⟨rfl, rfl⟩ := Prod.mk.injEq .. ▸ hmem) <;>
    simp [computeFilteredCostEstimates, length_ne_zero h, API_TOOL_PRICING, List.lookup]

/-- A successful association-list lookup returns one of the stored values. -/
theorem lookup_mem {α β : Type} [BEq α] (k : α) (v : β) :
    ∀ l : List (α × β), List.lookup k l = some v → v ∈ l.map Prod.snd := by
  intro l
  induction l with
  | nil => intro hl; simp [List.lookup] at hl
  | cons a as ih =>
    intro hl
    obtain ⟨ka, va⟩ := a
    rw [List.lookup] at hl
    cases hb : (k == ka) with
    | true => rw [hb] at hl; simp at hl; simp [hl]
    | false =>
      rw [hb] at hl
      simp at hl
      simp only [List.map_cons]
      exact List.mem_cons_of_mem _ (ih hl)

/-- A lookup with a key different from every stored key misses. -/
theorem lookup_eq_none_of_ne {β : Type} (k : String) :
    ∀ l : List (String × β), (∀ p ∈ l, k ≠ p.1) → List.lookup k l = none := by
  intro l
  induction l with
  | nil => intro _; rfl
  | cons a as ih =>
    intro hp
    obtain ⟨ka, va⟩ := a
    rw [List.lookup]
    have hb : (k == ka) = false := beq_eq_false_iff_ne.mpr (hp (ka, va) (by simp))
    rw [hb]
    exact ih fun p hpm => hp p (List.mem_cons_of_mem _ hpm)

/-- Rounding each of two summands to 4 decimal places and rounding
their sum agree up to one unit in the last place (integer part). -/
theorem floor_add_half_err (A B : ℚ) : |⌊A + B - 1/2⌋ - (⌊A⌋ + ⌊B⌋)| ≤ 1 := by
  have hA1 := Int.floor_le A
  have hA2 := Int.lt_floor_add_one A
  have hB1 := Int.floor_le B
  have hB2 := Int.lt_floor_add_one B
  have h1 : ⌊A + B - 1/2⌋ < ⌊A⌋ + ⌊B⌋ + 2 := by
    rw [Int.floor_lt]
    push_cast
    linarith
  have h2 : ⌊A⌋ + ⌊B⌋ - 1 ≤ ⌊A + B - 1/2⌋ := by
    rw [Int.le_floor]
    push_cast
    linarith
  rw [abs_le]
  omega

/-- Rounding the sum versus summing the roundings differ by at most
one unit in the fourth decimal place. -/
theorem jsToFixed4_add_err (a b : ℚ) :
    |jsToFixed4 (a + b) - (jsToFixed4 a + jsToFixed4 b)| ≤ 1/10000 := by
  have key := floor_add_half_err (a * 10000 + 1/2) (b * 10000 + 1/2)
  have hcast : |((⌊(a * 10000 + 1/2) + (b * 10000 + 1/2) - 1/2⌋ : ℤ) : ℚ) -
      (((⌊a * 10000 + 1/2⌋ : ℤ) : ℚ) + ((⌊b * 10000 + 1/2⌋ : ℤ) : ℚ))| ≤ 1 := by
    exact_mod_cast key
  have harg : (a + b) * 10000 + 1/2 = (a * 10000 + 1/2) + (b * 10000 + 1/2) - 1/2 := by
    ring
  have expand : jsToFixed4 (a + b) - (jsToFixed4 a + jsToFixed4 b) =
      (((⌊(a * 10000 + 1/2) + (b * 10000 + 1/2) - 1/2⌋ : ℤ) : ℚ) -
        (((⌊a * 10000 + 1/2⌋ : ℤ) : ℚ) + ((⌊b * 10000 + 1/2⌋ : ℤ) : ℚ))) / 10000 := by
    rw [jsToFixed4, jsToFixed4, jsToFixed4, harg]
    ring
  rw [expand, abs_div, abs_of_pos (by norm_num : (0:ℚ) < 10000)]
  linarith

/-!
## Claims
-/

/-- C1: for every non-empty list of filtered alerts, the Devin
(credit/ACU-based) estimate equals session_count × 0.09 ACU per session
× $2.00 per ACU rounded to 4 decimal places, where session_count is the
number of unique file paths among the filtered alerts, not the number
of alerts. -/
theorem devin_cost_session_per_unique_file (alerts : List Alert)
    (baselineEstimatedTokens baselineTotalAlerts : ℚ) (h : alerts ≠ []) :
    ∃ est, List.lookup "devin"
        (computeFilteredCostEstimates alerts baselineEstimatedTokens baselineTotalAlerts) =
          some est ∧
      est.total_cost_usd =
        jsToFixed4 ((uniqueFileCount alerts : ℚ) * DEVIN_ACU_PER_SESSION * DEVIN_COST_PER_ACU) := by
  exact ⟨_, lookup_devin baselineEstimatedTokens baselineTotalAlerts h, by simp [devinEstimate]⟩

/-- C1 witness: 12 alerts spread across 4 unique files yield a Devin
estimate of $0.72. -/
theorem devin_cost_session_per_unique_file_witness :
    demoAlerts.length = 12 ∧ uniqueFileCount demoAlerts = 4 ∧
    ∃ est, List.lookup "devin" (computeFilteredCostEstimates demoAlerts 0 0) = some est ∧
      est.total_cost_usd = 72/100 := by
  refine ⟨by decide, by decide, ?_⟩
  obtain ⟨est, hl, he⟩ := devin_cost_session_per_unique_file demoAlerts 0 0 (by decide)
  refine ⟨est, hl, ?_⟩
  rw [he, show uniqueFileCount demoAlerts = 4 from by decide]
  norm_num [jsToFixed4, DEVIN_ACU_PER_SESSION, DEVIN_COST_PER_ACU]

/-- C2: for every non-empty list of filtered alerts, the Copilot
(per-request) estimate equals alert_count × $0.04 rounded to 4 decimal
places, and depends only on the number of alerts, not on their
distribution across files. -/
theorem copilot_cost_flat_per_alert (alerts : List Alert)
    (baselineEstimatedTokens baselineTotalAlerts : ℚ) (h : alerts ≠ []) :
    (∃ est, List.lookup "copilot"
        (computeFilteredCostEstimates alerts baselineEstimatedTokens baselineTotalAlerts) =
          some est ∧
      est.total_cost_usd = jsToFixed4 ((alerts.length : ℚ) * COPILOT_COST_PER_REQUEST)) ∧
    ∀ (alerts' : List Alert) (bt' ba' : ℚ), alerts' ≠ [] → alerts'.length = alerts.length →
      ∀ e e', List.lookup "copilot"
          (computeFilteredCostEstimates alerts baselineEstimatedTokens baselineTotalAlerts) =
            some e →
        List.lookup "copilot" (computeFilteredCostEstimates alerts' bt' ba') = some e' →
        e.total_cost_usd = e'.total_cost_usd := by
  constructor
  · exact ⟨_, lookup_copilot baselineEstimatedTokens baselineTotalAlerts h, by simp [copilotEstimate]⟩
  · intro alerts' bt' ba' h' hlen e e' he he'
    rw [lookup_copilot baselineEstimatedTokens baselineTotalAlerts h] at he
    rw [lookup_copilot bt' ba' h'] at he'
    cases he
    cases he'
    simp [copilotEstimate, hlen]

/-- C2 witness: 12 alerts yield a Copilot estimate of $0.48. -/
theorem copilot_cost_flat_per_alert_witness :
    demoAlerts.length = 12 ∧
    ∃ est, List.lookup "copilot" (computeFilteredCostEstimates demoAlerts 0 0) = some est ∧
      est.total_cost_usd = 48/100 := by
  refine ⟨by decide, ?_⟩
  obtain ⟨⟨est, hl, he⟩, _⟩ := copilot_cost_flat_per_alert demoAlerts 0 0 (by decide)
  refine ⟨est, hl, ?_⟩
  rw [he, show demoAlerts.length = 12 from by decide]
  norm_num [jsToFixed4, COPILOT_COST_PER_REQUEST]

/-- C3 counterexample: with one filtered alert and a baseline of 9
estimated tokens over 1 alert, the anthropic estimate has
total_cost_usd = $0.0003 but input_cost_usd + output_cost_usd =
$0.0000 + $0.0002 = $0.0002: the rounded total does not equal the sum
of the rounded components. -/
theorem token_cost_sum_counterexample :
    ∃ est, List.lookup "anthropic"
        (computeFilteredCostEstimates [⟨1, "high", "src/a.ts"⟩] 9 1) = some est ∧
      est.total_cost_usd = 3/10000 ∧ est.input_cost_usd = 0 ∧ est.output_cost_usd = 2/10000 ∧
      est.total_cost_usd ≠ est.input_cost_usd + est.output_cost_usd := by
  have hl : List.lookup "anthropic" (computeFilteredCostEstimates [⟨1, "high", "src/a.ts"⟩] 9 1) =
      some (apiEstimate ⟨"claude-opus-4-6", 5, 25⟩ 9 9 1) := by
    have h9 : estimatedInputTokensFor ([(⟨1, "high", "src/a.ts"⟩ : Alert)].length) 9 1 = 9 := by
      norm_num [estimatedInputTokensFor, jsMathRound]
    rw [lookup_api [⟨1, "high", "src/a.ts"⟩] 9 1 (by decide) "anthropic"
      ⟨"claude-opus-4-6", 5, 25⟩ (by simp [API_TOOL_PRICING]), h9]
    rfl
  refine ⟨_, hl, ?_, ?_, ?_, ?_⟩ <;> norm_num [apiEstimate, jsToFixed4]

/-- C3 (amended): for every non-empty list of filtered alerts and each
token-priced tool of the pricing table, total_cost_usd is the
4-decimal-place rounding of (estimated_input_tokens/1e6 × input rate) +
(estimated_output_tokens/1e6 × output rate); input_cost_usd and
output_cost_usd are the 4-decimal-place roundings of the two summands;
total_cost_usd can differ from input_cost_usd + output_cost_usd, but by
at most $0.0001. -/
theorem token_cost_rounded_components (alerts : List Alert)
    (baselineEstimatedTokens baselineTotalAlerts : ℚ) (h : alerts ≠ [])
    (tool : String) (p : ApiPricing) (hmem : (tool, p) ∈ API_TOOL_PRICING) :
    ∃ est, List.lookup tool
        (computeFilteredCostEstimates alerts baselineEstimatedTokens baselineTotalAlerts) =
          some est ∧
      est.total_cost_usd = jsToFixed4 ((est.estimated_input_tokens : ℚ) / 1000000 * p.inputPerMtok
          + (est.estimated_output_tokens : ℚ) / 1000000 * p.outputPerMtok) ∧
      est.input_cost_usd = jsToFixed4 ((est.estimated_input_tokens : ℚ) / 1000000 * p.inputPerMtok) ∧
      est.output_cost_usd =
        jsToFixed4 ((est.estimated_output_tokens : ℚ) / 1000000 * p.outputPerMtok) ∧
      |est.total_cost_usd - (est.input_cost_usd + est.output_cost_usd)| ≤ 1/10000 := by
  refine ⟨_, lookup_api alerts baselineEstimatedTokens baselineTotalAlerts h tool p hmem,
    ?_, ?_, ?_, ?_⟩
  · simp [apiEstimate]
  · simp [apiEstimate]
  · simp [apiEstimate]
  · simpa [apiEstimate] using jsToFixed4_add_err
      ((estimatedInputTokensFor alerts.length baselineEstimatedTokens baselineTotalAlerts : ℚ)
        / 1000000 * p.inputPerMtok)
      ((estimatedInputTokensFor alerts.length baselineEstimatedTokens baselineTotalAlerts : ℚ)
        / 1000000 * p.outputPerMtok)

/-- C3 amended witness: the openai estimate for 12 alerts with no
baseline token data satisfies the rounded-total formula and the
one-unit-in-the-last-place bound. -/
theorem token_cost_rounded_components_witness :
    ∃ est, List.lookup "openai" (computeFilteredCostEstimates demoAlerts 0 0) = some est ∧
      est.total_cost_usd = jsToFixed4 ((est.estimated_input_tokens : ℚ) / 1000000 * (7/4)
          + (est.estimated_output_tokens : ℚ) / 1000000 * 14) ∧
      |est.total_cost_usd - (est.input_cost_usd + est.output_cost_usd)| ≤ 1/10000 := by
  obtain ⟨est, hl, h1, _, _, h4⟩ := token_cost_rounded_components demoAlerts 0 0 (by decide)
    "openai" ⟨"gpt-5.3-codex", 7/4, 14⟩ (by simp [API_TOOL_PRICING])
  exact ⟨est, hl, h1, h4⟩

-- Demo replay run: a completed run with events at offsets
-- [0, 1200, 5000, 5000] for two tools interleaved (spec replay scenario).
def eD0 : ReplayEvent := ⟨1, 1, "devin", "scan_started", "scan", none, 0, 0⟩
def eD1 : ReplayEvent := ⟨2, 1, "devin", "fix_pushed", "fix 7", some 7, 1200, 1/100⟩
def eC0 : ReplayEvent := ⟨3, 1, "copilot", "fix_pushed", "fix 8", some 8, 5000, 4/100⟩
def eC1 : ReplayEvent := ⟨4, 1, "copilot", "remediation_complete", "done", none, 5000, 0⟩

def demoRun : ReplayRunWithEvents :=
  ⟨1, "acme/app", "completed", ["devin", "copilot"], 5/100, [eD0, eC0, eD1, eC1], some 5000⟩

/-- The same run with its event list in a different insertion order. -/
def demoRunShuffled : ReplayRunWithEvents :=
  ⟨1, "acme/app", "completed", ["devin", "copilot"], 5/100, [eC1, eD1, eC0, eD0], some 5000⟩

/-- C4: for every run and playback time T, the replay view
reconstructs exactly the events with timestamp_offset_ms ≤ T, in the
global log and in each per-tool lane (which agrees with filtering the
global view by tool), and per-tool visible events are
insertion-order-independent up to permutation. -/
theorem replay_reconstruction_le_T (run : ReplayRunWithEvents) (T : ℚ) :
    (∀ e, e ∈ visibleEvents run T ↔ e ∈ run.events ∧ e.timestamp_offset_ms ≤ T) ∧
    (∀ tool e, e ∈ toolVisibleEvents run tool T ↔
        e ∈ run.events ∧ e.tool = tool ∧ e.timestamp_offset_ms ≤ T) ∧
    (∀ tool, toolVisibleEvents run tool T =
        (visibleEvents run T).filter (fun e => e.tool == tool)) ∧
    (∀ run' : ReplayRunWithEvents, run'.events.Perm run.events →
       ∀ tool, (toolVisibleEvents run' tool T).Perm (toolVisibleEvents run tool T)) := by
  refine ⟨?_, ?_, ?_, ?_⟩
  · intro e
    simp [visibleEvents, List.mem_filter]
  · intro tool e
    simp only [toolVisibleEvents, eventsByTool, List.mem_filter, decide_eq_true_eq,
      beq_iff_eq]
    tauto
  · intro tool
    simp only [toolVisibleEvents, eventsByTool, visibleEvents, List.filter_filter]
    apply List.filter_congr
    intro e _
    exact Bool.and_comm _ _
  · intro run' hp tool
    exact (hp.filter _).filter _

/-- C4 witness: in the demo run (offsets [0, 1200, 5000, 5000], two
tools interleaved), query time T = 3000 reconstructs exactly the
offsets ≤ 3000, and the devin lane is permutation-invariant under
reordering the event list. -/
theorem replay_reconstruction_le_T_witness :
    ((visibleEvents demoRun 3000).map (·.timestamp_offset_ms) = [0, 1200]) ∧
    (eD1 ∈ toolVisibleEvents demoRun "devin" 3000 ↔
      eD1 ∈ demoRun.events ∧ eD1.tool = "devin" ∧ eD1.timestamp_offset_ms ≤ 3000) ∧
    (toolVisibleEvents demoRunShuffled "devin" 3000).Perm
      (toolVisibleEvents demoRun "devin" 3000) :=
  ⟨by norm_num [visibleEvents, demoRun, eD0, eD1, eC0, eC1, List.filter],
   (replay_reconstruction_le_T demoRun 3000).2.1 "devin" eD1,
   (replay_reconstruction_le_T demoRun 3000).2.2.2 demoRunShuffled
     (List.reverse_perm demoRun.events) "devin"⟩

/-- C6: whenever output token counts are unknown, estimated output
tokens equal estimated input tokens — every estimate returned by
computeFilteredCostEstimates (in particular every token-based one)
satisfies estimated_output_tokens = estimated_input_tokens. -/
theorem output_tokens_equal_input (alerts : List Alert)
    (baselineEstimatedTokens baselineTotalAlerts : ℚ) (tool : String) (est : CostEstimate)
    (h : List.lookup tool
        (computeFilteredCostEstimates alerts baselineEstimatedTokens baselineTotalAlerts) =
      some est) :
    est.estimated_output_tokens = est.estimated_input_tokens := by
  by_cases hlen : alerts.length = 0
  · simp [computeFilteredCostEstimates, hlen, List.lookup] at h
  · have hm := lookup_mem tool est _ h
    simp [computeFilteredCostEstimates, hlen, API_TOOL_PRICING] at hm
    rcases hm with rfl | rfl | rfl | rfl | rfl <;> rfl

/-- C6 witness: the gemini (token-based) estimate for the demo alerts
has equal estimated output and input tokens. -/
theorem output_tokens_equal_input_witness :
    ∃ est, List.lookup "gemini" (computeFilteredCostEstimates demoAlerts 0 0) = some est ∧
      est.estimated_output_tokens = est.estimated_input_tokens := by
  have hl := lookup_api demoAlerts 0 0 (by decide) "gemini"
    ⟨"gemini-3.1-pro-preview", 2, 12⟩ (by simp [API_TOOL_PRICING])
  exact ⟨_, hl, output_tokens_equal_input demoAlerts 0 0 "gemini" _ hl⟩

/-- C8: the cost estimator is total over its inputs: the empty alert
list yields the empty estimate record, and a tool identifier absent
from the static pricing table yields no estimate entry rather than an
error (the embedding itself is a total function). -/
theorem estimator_total_safe (baselineEstimatedTokens baselineTotalAlerts : ℚ) :
    computeFilteredCostEstimates [] baselineEstimatedTokens baselineTotalAlerts = [] ∧
    ∀ (alerts : List Alert) (tool : String),
      tool ∉ ["devin", "copilot", "anthropic", "openai", "gemini"] →
      List.lookup tool
        (computeFilteredCostEstimates alerts baselineEstimatedTokens baselineTotalAlerts) =
          none := by
  refine ⟨by simp [computeFilteredCostEstimates], ?_⟩
  intro alerts tool htool
  simp only [List.mem_cons, List.not_mem_nil, or_false, not_or] at htool
  obtain ⟨h1, h2, h3, h4, h5⟩ := htool
  apply lookup_eq_none_of_ne
  intro q hq
  by_cases hlen : alerts.length = 0
  · simp [computeFilteredCostEstimates, hlen] at hq
  · simp [computeFilteredCostEstimates, hlen, API_TOOL_PRICING] at hq
    rcases hq with rfl | rfl | rfl | rfl | rfl <;> simp_all

/-- C8 witness: the empty list yields an empty record, and the unknown
tool identifier "mistral" yields no entry. -/
theorem estimator_total_safe_witness :
    computeFilteredCostEstimates [] 0 0 = [] ∧
    List.lookup "mistral" (computeFilteredCostEstimates demoAlerts 0 0) = none :=
  ⟨(estimator_total_safe 0 0).1, (estimator_total_safe 0 0).2 demoAlerts "mistral" (by decide)⟩

/-- C9: the per-tool fix count is the number of distinct alert_number
values among the tool's visible fix-type events (an alert referenced by
several fix events is counted once — the counted list has no
duplicates), and the count is monotonically non-decreasing in the
playback time. -/
theorem fix_count_distinct_mono (run : ReplayRunWithEvents) (tool : String) (T T' : ℚ)
    (hT : T ≤ T') :
    fixCount run tool T =
      (((visibleEvents run T).filter (isFixCandidate tool)).filterMap
        (fun e => e.alert_number)).toFinset.card ∧
    (fixedAlerts run tool T).Nodup ∧
    fixCount run tool T ≤ fixCount run tool T' := by
  refine ⟨(List.card_toFinset _).symm, List.nodup_dedup _, ?_⟩
  have hvis : ∀ e, e ∈ visibleEvents run T → e ∈ visibleEvents run T' := by
    intro e hee
    rw [visibleEvents, List.mem_filter] at hee ⊢
    exact ⟨hee.1, decide_eq_true_eq.mpr (le_trans (decide_eq_true_eq.mp hee.2) hT)⟩
  rw [fixCount, fixCount, fixedAlerts, fixedAlerts, ← List.card_toFinset, ← List.card_toFinset]
  apply Finset.card_le_card
  intro a ha
  rw [List.mem_toFinset] at ha ⊢
  rw [List.mem_filterMap] at ha ⊢
  obtain ⟨e, he, hf⟩ := ha
  rw [List.mem_filter] at he
  exact ⟨e, List.mem_filter.mpr ⟨hvis e he.1, he.2⟩, hf⟩

-- Demo run for the fix counter: alert 7 is referenced by two fix-type
-- events (fix_pushed at 1000 ms and codeql_verified at 2000 ms).
def eF1 : ReplayEvent := ⟨1, 2, "devin", "fix_pushed", "fix 7", some 7, 1000, 0⟩
def eF2 : ReplayEvent := ⟨2, 2, "devin", "codeql_verified", "verify 7", some 7, 2000, 0⟩
def eF3 : ReplayEvent := ⟨3, 2, "devin", "fix_pushed", "fix 9", some 9, 4000, 0⟩

def demoFixRun : ReplayRunWithEvents :=
  ⟨2, "acme/app", "completed", ["devin"], 0, [eF1, eF2, eF3], some 5000⟩

/-- C9 witness: at T = 3000 the two fix events for alert 7 are counted
once; the count does not decrease from T = 3000 to T' = 6000. -/
theorem fix_count_distinct_mono_witness :
    fixCount demoFixRun "devin" 3000 = 1 ∧ fixCount demoFixRun "devin" 6000 = 2 ∧
    (fixedAlerts demoFixRun "devin" 3000).Nodup ∧
    fixCount demoFixRun "devin" 3000 ≤ fixCount demoFixRun "devin" 6000 := by
  obtain ⟨_, h2, h3⟩ := fix_count_distinct_mono demoFixRun "devin" 3000 6000 (by norm_num)
  exact ⟨by decide, by decide, h2, h3⟩

/-- C10: playback keeps the time cursor within the run's duration:
`maxOffset` (the run's total_duration_ms, or 1 when unset or zero) is
positive; each play tick either advances `currentTime` by
(maxOffset/30000) × 50 × speed or clamps it to exactly `maxOffset` and
stops playing; and any sequence of playback operations started from 0
leaves 0 ≤ currentTime ≤ maxOffset. -/
theorem playback_cursor_bounded (run : ReplayRunWithEvents) (speed : ℚ)
    (hd : ∀ d ∈ run.total_duration_ms, 0 ≤ d) (hs : 0 ≤ speed) :
    0 < playbackMaxOffset run ∧
    (∀ t, (playbackMaxOffset run ≤ t + playbackMaxOffset run / 30000 * 50 * speed ∧
        playbackStep (playbackMaxOffset run) speed t = (playbackMaxOffset run, false)) ∨
      (t + playbackMaxOffset run / 30000 * 50 * speed < playbackMaxOffset run ∧
        playbackStep (playbackMaxOffset run) speed t =
          (t + playbackMaxOffset run / 30000 * 50 * speed, true))) ∧
    ∀ ops, 0 ≤ (playbackRun (playbackMaxOffset run) speed ops).1 ∧
      (playbackRun (playbackMaxOffset run) speed ops).1 ≤ playbackMaxOffset run := by
  have hmax : 0 < playbackMaxOffset run := by
    rw [playbackMaxOffset]
    cases hm : run.total_duration_ms with
    | none => norm_num
    | some d =>
      have h0 := hd d (Option.mem_def.mpr hm)
      by_cases hz : d = 0
      · simp [hz]
      · simp only [hz, if_false]
        exact lt_of_le_of_ne h0 (Ne.symm hz)
  have hincr : 0 ≤ playbackMaxOffset run / 30000 * 50 * speed :=
    mul_nonneg (mul_nonneg (div_nonneg (le_of_lt hmax) (by norm_num)) (by norm_num)) hs
  have hstep : ∀ t, (playbackMaxOffset run ≤ t + playbackMaxOffset run / 30000 * 50 * speed ∧
      playbackStep (playbackMaxOffset run) speed t = (playbackMaxOffset run, false)) ∨
      (t + playbackMaxOffset run / 30000 * 50 * speed < playbackMaxOffset run ∧
        playbackStep (playbackMaxOffset run) speed t =
          (t + playbackMaxOffset run / 30000 * 50 * speed, true)) := by
    intro t
    by_cases hc : playbackMaxOffset run ≤ t + playbackMaxOffset run / 30000 * 50 * speed
    · exact Or.inl ⟨hc, by simp [playbackStep, hc]⟩
    · exact Or.inr ⟨lt_of_not_le hc, by simp [playbackStep, hc]⟩
  have happ : ∀ (op : PlaybackOp) (s : ℚ × Bool),
      0 ≤ s.1 → s.1 ≤ playbackMaxOffset run →
      0 ≤ (playbackApply (playbackMaxOffset run) speed s op).1 ∧
        (playbackApply (playbackMaxOffset run) speed s op).1 ≤ playbackMaxOffset run := by
    intro op s h0 h1
    cases op with
    | play => exact ⟨h0, h1⟩
    | pause => exact ⟨h0, h1⟩
    | reset => exact ⟨le_refl 0, le_of_lt hmax⟩
    | tick =>
      show 0 ≤ (if s.2 then playbackStep (playbackMaxOffset run) speed s.1 else s).1 ∧
        (if s.2 then playbackStep (playbackMaxOffset run) speed s.1 else s).1 ≤
          playbackMaxOffset run
      by_cases hb2 : s.2 = true
      · rw [if_pos hb2]
        rcases hstep s.1 with ⟨_, heq⟩ | ⟨hlt, heq⟩
        · rw [heq]
          exact ⟨le_of_lt hmax, le_refl _⟩
        · rw [heq]
          exact ⟨add_nonneg h0 hincr, le_of_lt hlt⟩
      · rw [if_neg hb2]
        exact ⟨h0, h1⟩
  have hinv : ∀ (ops : List PlaybackOp) (s : ℚ × Bool),
      0 ≤ s.1 → s.1 ≤ playbackMaxOffset run →
      0 ≤ (ops.foldl (playbackApply (playbackMaxOffset run) speed) s).1 ∧
        (ops.foldl (playbackApply (playbackMaxOffset run) speed) s).1 ≤
          playbackMaxOffset run := by
    intro ops
    induction ops with
    | nil => intro s h0 h1; exact ⟨h0, h1⟩
    | cons op ops ih =>
      intro s h0 h1
      rw [List.foldl_cons]
      exact ih _ (happ op s h0 h1).1 (happ op s h0 h1).2
  exact ⟨hmax, hstep, fun ops => hinv ops (0, false) le_rfl (le_of_lt hmax)⟩

/-- C10 witness: on the demo run (duration 5000 ms) at speed 2, a
play/tick/tick/reset/tick sequence leaves the cursor within
[0, maxOffset], and maxOffset is positive. -/
theorem playback_cursor_bounded_witness :
    0 < playbackMaxOffset demoRun ∧
    0 ≤ (playbackRun (playbackMaxOffset demoRun) 2
        [.play, .tick, .tick, .reset, .tick]).1 ∧
    (playbackRun (playbackMaxOffset demoRun) 2
        [.play, .tick, .tick, .reset, .tick]).1 ≤ playbackMaxOffset demoRun := by
  obtain ⟨h1, _, h3⟩ := playback_cursor_bounded demoRun 2
    (by
      intro d hd
      have hd5 : d = 5000 := by simpa [demoRun, Option.mem_def, eq_comm] using hd
      rw [hd5]
      norm_num)
    (by norm_num)
  exact ⟨h1, (h3 _).1, (h3 _).2⟩

/-- C5: the run's recorded total cost equals the sum of its events'
per-event costs — it holds for a fresh run, is preserved by every
append, and therefore holds after any sequence of appends (in
particular when the run reaches a terminal state). -/
theorem run_total_cost_eq_sum_events :
    costInvariant initRunState ∧
    (∀ s e, costInvariant s → costInvariant (appendEvent s e)) ∧
    (∀ es, costInvariant (appendAll initRunState es)) := by
  have hstep : ∀ s e, costInvariant s → costInvariant (appendEvent s e) := by
    intro s e hs
    rw [costInvariant] at hs ⊢
    simp [appendEvent, hs]
  have hall : ∀ (es : List StoredEvent) (s : RunState),
      costInvariant s → costInvariant (appendAll s es) := by
    intro es
    induction es with
    | nil => intro s hs; exact hs
    | cons e es ih =>
      intro s hs
      rw [appendAll, List.foldl_cons]
      exact ih (appendEvent s e) (hstep s e hs)
  exact ⟨by simp [costInvariant, initRunState], hstep,
    fun es => hall es initRunState (by simp [costInvariant, initRunState])⟩

/-- C5 witness: appending three concrete events keeps the run's total
equal to the sum of its events' costs. -/
theorem run_total_cost_eq_sum_events_witness :
    costInvariant (appendEvent (appendAll initRunState
      [⟨"devin", 0, 1/100⟩, ⟨"copilot", 5000, 4/100⟩]) ⟨"devin", 1200, 1/100⟩) :=
  run_total_cost_eq_sum_events.2.1 _ _
    (run_total_cost_eq_sum_events.2.2 [⟨"devin", 0, 1/100⟩, ⟨"copilot", 5000, 4/100⟩])

/-- C7: within each tool's event sequence, timestamp offsets are
non-decreasing: the invariant holds for a fresh run and is preserved by
appending any event whose offset is at least every prior offset of its
own tool — offsets of other tools are unconstrained, so strict
monotonicity across the interleaved log is not required. -/
theorem tool_offsets_nondecreasing :
    perToolMonotone initRunState ∧
    ∀ s e, perToolMonotone s → (∀ x ∈ toolOffsets s e.tool, x ≤ e.offset_ms) →
      perToolMonotone (appendEvent s e) := by
  constructor
  · intro tool
    simp [toolOffsets, initRunState]
  · intro s e hs hb tool
    rw [perToolMonotone] at hs
    rw [toolOffsets, appendEvent]
    simp only [List.filter_append, List.map_append]
    cases hbeq : (e.tool == tool) with
    | false =>
      simp only [List.filter_cons, List.filter_nil, hbeq, Bool.false_eq_true, if_false,
        List.map_nil, List.append_nil]
      exact hs tool
    | true =>
      simp only [List.filter_cons, List.filter_nil, hbeq, if_true, List.map_cons, List.map_nil]
      rw [List.Sorted, List.pairwise_append]
      refine ⟨hs tool, List.pairwise_singleton _ _, ?_⟩
      intro a ha b hb2
      have hbe : b = e.offset_ms := by simpa using hb2
      rw [hbe]
      have heq : e.tool = tool := eq_of_beq hbeq
      refine hb a ?_
      rw [toolOffsets, heq]
      exact ha

/-- C7 witness: interleaving devin offsets [0, 1200] with copilot
offsets [5000, 5000] — a globally non-monotone insertion order — keeps
every per-tool offset sequence non-decreasing. -/
theorem tool_offsets_nondecreasing_witness :
    perToolMonotone (appendEvent (appendEvent (appendEvent (appendEvent initRunState
      ⟨"devin", 0, 0⟩) ⟨"copilot", 5000, 0⟩) ⟨"devin", 1200, 0⟩) ⟨"copilot", 5000, 0⟩) := by
  have h1 := tool_offsets_nondecreasing.2 initRunState ⟨"devin", 0, 0⟩
    tool_offsets_nondecreasing.1 (by decide)
  have h2 := tool_offsets_nondecreasing.2 _ ⟨"copilot", 5000, 0⟩ h1 (by decide)
  have h3 := tool_offsets_nondecreasing.2 _ ⟨"devin", 1200, 0⟩ h2 (by decide)
  exact tool_offsets_nondecreasing.2 _ ⟨"copilot", 5000, 0⟩ h3 (by decide)

end MedSecure
